import Mathlib

/-!
  Verification development for the socket-level HTTP/1.1 client of
  `stripe-bun` (`src/index.js`, class `CustomHttpClient`).

  The JavaScript code is shallowly embedded:
  * `Buffer` contents and JS strings are both modelled as `List Char`
    (the client only ever decodes buffers with `toString()`, which on the
    byte sequences relevant here is the identity on code points; the one
    place where byte length matters, `Buffer.byteLength`, is modelled
    with `Char.utf8Size`).
  * JS numbers that can be `NaN` are modelled as `Option Int`
    (`none` = `NaN`); every comparison on them follows the JS semantics
    (`NaN` compares false, `NaN !== -1` is true).
  * The event-driven socket callbacks of `makeRequest`
    (`data` / `end` / `timeout` / `error`) are re-expressed as a state
    machine `stepEvent` on `ConnState`, driven by an explicit event list.
    The promise's settle-once semantics is modelled by `settle`.
-/

namespace StripeBun

/-- Buffers and JS strings, modelled as lists of characters. -/
abbrev Str := List Char

def crlf : Str := "\r\n".data

def crlfcrlf : Str := "\r\n\r\n".data

def colonSp : Str := ": ".data

def spStr : Str := " ".data

def chunkedLit : Str := "chunked".data

def teLit : Str := "transfer-encoding".data

def clLit : Str := "content-length".data

def negOneLit : Str := "-1".data

/-- `sep` occurs at the start of `s` (JS `String/Buffer` comparison at an offset). -/
def seqStartsWith : Str → Str → Bool
  | [], _ => true
  | _ :: _, [] => false
  | a :: as, b :: bs => decide (a = b) && seqStartsWith as bs

/-- Index of the first occurrence of `sep` in `s`:
`Buffer.prototype.indexOf` / `String.prototype.indexOf`, with `none` for `-1`. -/
def firstIdx (sep : Str) : Str → Option Nat
  | [] => if seqStartsWith sep [] then some 0 else none
  | c :: rest =>
    if seqStartsWith sep (c :: rest) then some 0
    else (firstIdx sep rest).map (· + 1)

/-- Fuel-driven worker for `splitSeq`; the fuel only makes the recursion
structural (one unit per consumed character) and is always supplied as the
string's length, which can never run out for a non-empty separator. -/
def splitSeqF (sep : Str) : Nat → Str → List Str
  | _, [] => [[]]
  | 0, s => [s]
  | fuel + 1, c :: rest =>
    if sep ≠ [] ∧ seqStartsWith sep (c :: rest) then
      [] :: splitSeqF sep fuel (List.drop (sep.length - 1) rest)
    else
      match splitSeqF sep fuel rest with
      | [] => [[c]]
      | t :: ts => (c :: t) :: ts

/-- JS `String.prototype.split` with a non-empty string separator: split at
every non-overlapping occurrence of `sep`, scanning left to right.  (The
client only ever splits on `"\r\n"`, `": "` and `" "`.) -/
def splitSeq (sep s : Str) : List Str := splitSeqF sep s.length s

/-- JS object property write `m[k] = v`: overwrite in place if the key is
present (insertion order kept), append otherwise. -/
def setAssoc {α : Type} : List (Str × α) → Str → α → List (Str × α)
  | [], k, v => [(k, v)]
  | (k', v') :: rest, k, v =>
    if k' = k then (k, v) :: rest else (k', v') :: setAssoc rest k v

/-- JS object property read `m[k]` (before collapsing stored `undefined`). -/
def getAssoc {α : Type} : List (Str × α) → Str → Option α
  | [], _ => none
  | (k', v') :: rest, k => if k' = k then some v' else getAssoc rest k

/-- The response-header object: insertion-ordered keys; a stored value of
`none` models a stored JS `undefined` (a header line with no `": "`). -/
abbrev Headers := List (Str × Option Str)

/-- JS read `headers[k]`: both a missing key and a stored `undefined` read as
`undefined` (`none`). -/
def getHeader (hs : Headers) (k : Str) : Option Str := Option.join (getAssoc hs k)

def isJsSpace (c : Char) : Bool :=
  decide (c = ' ') || decide (c = '\t') || decide (c = '\n') || decide (c = '\r')

def digitsToNat (ds : Str) : Nat := ds.foldl (fun a c => a * 10 + (c.toNat - 48)) 0

/-- JS `parseInt(s)` (radix 10): skip leading whitespace, optional sign, then
the longest digit prefix; `none` models `NaN`. -/
def jsParseInt (s : Str) : Option Int :=
  let t := s.dropWhile isJsSpace
  match t with
  | '-' :: r =>
    let ds := r.takeWhile Char.isDigit
    if ds = [] then none else some (-(digitsToNat ds : Int))
  | '+' :: r =>
    let ds := r.takeWhile Char.isDigit
    if ds = [] then none else some ((digitsToNat ds : Int))
  | _ =>
    let ds := t.takeWhile Char.isDigit
    if ds = [] then none else some ((digitsToNat ds : Int))

/-- `parseInt` applied to a possibly-`undefined` JS value
(`parseInt(undefined)` is `NaN`). -/
def jsParseIntOfOpt : Option Str → Option Int
  | some s => jsParseInt s
  | none => none

/-- JS `v || d` for a possibly-`undefined` string `v`
(the empty string is falsy). -/
def jsOrStr (v : Option Str) (d : Str) : Str :=
  match v with
  | some s => if s = [] then d else s
  | none => d

/-- JS `n >= x` where `n` is a buffer length and `x` may be `NaN`. -/
def jsGe (n : Nat) (o : Option Int) : Bool :=
  match o with
  | some v => decide ((n : Int) ≥ v)
  | none => false

/-- The values computed once the `\r\n\r\n` terminator is found
(`src/index.js` lines 134–147). -/
structure HeadInfo where
  statusCode : Option Int
  headers : Headers
  chunkedTransfer : Bool
  contentLength : Option Int
deriving DecidableEq

/-- Lines 140–143: each header line is split on `": "`, the part before the
first separator is lower-cased and used as the key, the second split segment
(JS destructuring drops any later segments) is the stored value; assignment
into the object makes the last occurrence of a key win. -/
def parseHeaderLines (headerLines : List Str) : Headers :=
  headerLines.foldl
    (fun hs line =>
      let parts := splitSeq colonSp line
      setAssoc hs ((parts.headD []).map Char.toLower) parts[1]?)
    []

/-- Lines 137–147 applied to an already-split head: status code from the
second space-separated token of the status line, header object, chunked flag,
content length. -/
def mkHeadInfo (statusLine : Str) (headerLines : List Str) : HeadInfo :=
  let statusCode := jsParseIntOfOpt (splitSeq spStr statusLine)[1]?
  let headers := parseHeaderLines headerLines
  { statusCode := statusCode
  , headers := headers
  , chunkedTransfer := decide (getHeader headers teLit = some chunkedLit)
  , contentLength := jsParseInt (jsOrStr (getHeader headers clLit) negOneLit) }

/-- Lines 134–147: split the accumulated head on `"\r\n"`; the first line is
the status line and the rest are header lines. -/
def parseHead (headersString : Str) : HeadInfo :=
  let lines := splitSeq crlf headersString
  mkHeadInfo (lines.headD []) lines.tail

/-- The value the promise is resolved with, keeping the arguments of
`createResponse(url, statusCode, headers, responseData.toString())`. -/
structure Resp where
  url : Str
  status : Option Int
  headers : Headers
  body : Str
deriving DecidableEq

/-- The two reject reasons that exist in `makeRequest`: the `timeout` handler
(`new Error("Connection timed out")`) and the socket `error` handlers. -/
inductive JsErr
  | timedOut
  | socketError
deriving DecidableEq

inductive Outcome
  | success (r : Resp)
  | failure (e : JsErr)
deriving DecidableEq

/-- The mutable closure state of one `makeRequest` call
(`src/index.js` lines 120–126), plus the promise's settlement. -/
structure ConnState where
  url : Str
  responseData : Str
  headers : Headers
  statusCode : Option Int
  isHeadersParsed : Bool
  contentLength : Option Int
  chunkedTransfer : Bool
  outcome : Option Outcome
deriving DecidableEq

def initState (url : Str) : ConnState :=
  { url := url
  , responseData := []
  , headers := []
  , statusCode := some 0
  , isHeadersParsed := false
  , contentLength := some (-1)
  , chunkedTransfer := false
  , outcome := none }

/-- A promise settles exactly once: later `resolve`/`reject` calls are no-ops. -/
def settle (st : ConnState) (o : Outcome) : ConnState :=
  match st.outcome with
  | some _ => st
  | none => { st with outcome := some o }

def mkResp (st : ConnState) : Resp :=
  { url := st.url, status := st.statusCode, headers := st.headers, body := st.responseData }

/-- The `data` handler (`src/index.js` lines 128–175). -/
def onData (st : ConnState) (chunk : Str) : ConnState :=
  let rd := st.responseData ++ chunk
  if st.isHeadersParsed = false then
    match firstIdx crlfcrlf rd with
    | none => { st with responseData := rd }
    | some headerEndIndex =>
      let hi := parseHead (rd.take headerEndIndex)
      let rd2 := rd.drop (headerEndIndex + 4)
      let st' := { st with
        responseData := rd2
        , headers := hi.headers
        , statusCode := hi.statusCode
        , isHeadersParsed := true
        , chunkedTransfer := hi.chunkedTransfer
        , contentLength := hi.contentLength }
      if hi.chunkedTransfer = false ∧
          (hi.contentLength = some (-1) ∨ jsGe rd2.length hi.contentLength = true) then
        settle st' (Outcome.success (mkResp st'))
      else st'
  else
    let st' := { st with responseData := rd }
    if st'.contentLength ≠ some (-1) ∧ jsGe rd.length st'.contentLength = true then
      settle st' (Outcome.success (mkResp st'))
    else st'

/-- The `end` handler (`src/index.js` lines 177–184). -/
def onEnd (st : ConnState) : ConnState :=
  if st.isHeadersParsed = false ∨ (st.contentLength = some (-1) ∧ st.chunkedTransfer = false) then
    settle st (Outcome.success (mkResp st))
  else st

/-- The socket `timeout` handler (`src/index.js` lines 88–91). -/
def onTimeout (st : ConnState) : ConnState := settle st (Outcome.failure JsErr.timedOut)

/-- The socket `error` handlers (lines 186–188 and 193–195). -/
def onSocketError (st : ConnState) : ConnState := settle st (Outcome.failure JsErr.socketError)

/-- One transport event delivered to the handlers, in arrival order. -/
inductive Event
  | dataEv (chunk : Str)
  | endEv
  | timeoutEv
  | errorEv

def stepEvent (st : ConnState) : Event → ConnState
  | .dataEv c => onData st c
  | .endEv => onEnd st
  | .timeoutEv => onTimeout st
  | .errorEv => onSocketError st

def runEvents (st : ConnState) (evs : List Event) : ConnState := evs.foldl stepEvent st

/-! ## Request encoding (`src/index.js` lines 70–83) -/

/-- `Buffer.byteLength` of a JS string: its UTF-8 byte length. -/
def utf8Len (s : Str) : Nat := (s.map Char.utf8Size).sum

def natToStr (n : Nat) : Str := (Nat.repr n).data

def hostLit : Str := "Host".data

def clHdrLit : Str := "Content-Length".data

def httpTail : Str := " HTTP/1.1\r\n".data

/-- Lines 70–83: `postData = requestData || ""`;
`requestHeaders = { ...headers, Host: host, "Content-Length": byteLength(postData) }`;
then the request line, one `key: value\r\n` per entry in insertion order, a
blank line, and the body verbatim. -/
def buildRequest (method path host : Str) (headers : List (Str × Str))
    (requestData : Option Str) : Str :=
  let postData := requestData.getD []
  let requestHeaders :=
    setAssoc (setAssoc headers hostLit host) clHdrLit (natToStr (utf8Len postData))
  let requestLine := method ++ spStr ++ path ++ httpTail
  let withHeaders :=
    requestHeaders.foldl (fun acc kv => acc ++ kv.1 ++ colonSp ++ kv.2 ++ crlf) requestLine
  withHeaders ++ crlf ++ postData

/-! ## Response view (`src/index.js` lines 200–312) -/

/-- The `statusCodeToText` table (lines 200–263), as a lookup from a
non-negative numeric key. -/
def statusTextTable (n : Nat) : Option String :=
  match n with
  | 100 => some "Continue"
  | 101 => some "Switching Protocols"
  | 102 => some "Processing"
  | 103 => some "Early Hints"
  | 200 => some "OK"
  | 201 => some "Created"
  | 202 => some "Accepted"
  | 203 => some "Non-Authoritative Information"
  | 204 => some "No Content"
  | 205 => some "Reset Content"
  | 206 => some "Partial Content"
  | 207 => some "Multi-Status"
  | 208 => some "Already Reported"
  | 226 => some "IM Used"
  | 300 => some "Multiple Choices"
  | 301 => some "Moved Permanently"
  | 302 => some "Found"
  | 303 => some "See Other"
  | 304 => some "Not Modified"
  | 305 => some "Use Proxy"
  | 307 => some "Temporary Redirect"
  | 308 => some "Permanent Redirect"
  | 400 => some "Bad Request"
  | 401 => some "Unauthorized"
  | 402 => some "Payment Required"
  | 403 => some "Forbidden"
  | 404 => some "Not Found"
  | 405 => some "Method Not Allowed"
  | 406 => some "Not Acceptable"
  | 407 => some "Proxy Authentication Required"
  | 408 => some "Request Timeout"
  | 409 => some "Conflict"
  | 410 => some "Gone"
  | 411 => some "Length Required"
  | 412 => some "Precondition Failed"
  | 413 => some "Payload Too Large"
  | 414 => some "URI Too Long"
  | 415 => some "Unsupported Media Type"
  | 416 => some "Range Not Satisfiable"
  | 417 => some "Expectation Failed"
  | 418 => some "I\x27m a teapot"
  | 421 => some "Misdirected Request"
  | 422 => some "Unprocessable Entity"
  | 423 => some "Locked"
  | 424 => some "Failed Dependency"
  | 425 => some "Too Early"
  | 426 => some "Upgrade Required"
  | 428 => some "Precondition Required"
  | 429 => some "Too Many Requests"
  | 431 => some "Request Header Fields Too Large"
  | 451 => some "Unavailable For Legal Reasons"
  | 500 => some "Internal Server Error"
  | 501 => some "Not Implemented"
  | 502 => some "Bad Gateway"
  | 503 => some "Service Unavailable"
  | 504 => some "Gateway Timeout"
  | 505 => some "HTTP Version Not Supported"
  | 506 => some "Variant Also Negotiates"
  | 507 => some "Insufficient Storage"
  | 508 => some "Loop Detected"
  | 510 => some "Not Extended"
  | 511 => some "Network Authentication Required"
  | _ => none

/-- `getStatusText` (lines 270–272): table lookup with default
`"Unknown Status"`; a `NaN` or negative status code has no table entry. -/
def getStatusText (status : Option Int) : String :=
  match status with
  | some (Int.ofNat n) => (statusTextTable n).getD "Unknown Status"
  | _ => "Unknown Status"

/-- JS `s >= k` where `s` may be `NaN`. -/
def jsGeI (o : Option Int) (k : Int) : Bool :=
  match o with
  | some v => decide (v ≥ k)
  | none => false

/-- JS `s < k` where `s` may be `NaN`. -/
def jsLtI (o : Option Int) (k : Int) : Bool :=
  match o with
  | some v => decide (v < k)
  | none => false

/-- The object returned by `getRawResponse()` (lines 286–296). -/
structure StripeRawResp where
  ok : Bool
  url : Str
  status : Option Int
  statusText : String
  headers : Headers
  redirected : Bool
  bodyUsed : Bool
deriving DecidableEq

/-- `createResponse(...).getRawResponse()`:
`ok` is `statusCode >= 200 && statusCode < 300`. -/
def getRawResponse (r : Resp) : StripeRawResp :=
  { ok := jsGeI r.status 200 && jsLtI r.status 300
  , url := r.url
  , status := r.status
  , statusText := getStatusText r.status
  , headers := r.headers
  , redirected := false
  , bodyUsed := true }

/-! ## Lemmas about the scanning primitives -/

theorem seqStartsWith_append {sep t : Str} (u : Str) (h : seqStartsWith sep t = true) :
    seqStartsWith sep (t ++ u) = true := by
  induction sep generalizing t with
  | nil => rfl
  | cons a as ih =>
    cases t with
    | nil => simp [seqStartsWith] at h
    | cons b bs =>
      simp only [seqStartsWith, List.cons_append, Bool.and_eq_true, decide_eq_true_eq] at h ⊢
      exact ⟨h.1, ih h.2⟩

theorem seqStartsWith_length_le {sep t : Str} (h : seqStartsWith sep t = true) :
    sep.length ≤ t.length := by
  induction sep generalizing t with
  | nil => simp
  | cons a as ih =>
    cases t with
    | nil => simp [seqStartsWith] at h
    | cons b bs =>
      simp only [seqStartsWith, Bool.and_eq_true] at h
      have := ih h.2
      simp only [List.length_cons]
      omega

theorem seqStartsWith_of_append {sep t u : Str} (h : seqStartsWith sep (t ++ u) = true)
    (hlen : sep.length ≤ t.length) : seqStartsWith sep t = true := by
  induction sep generalizing t with
  | nil => rfl
  | cons a as ih =>
    cases t with
    | nil => simp at hlen
    | cons b bs =>
      simp only [List.cons_append, seqStartsWith, Bool.and_eq_true, decide_eq_true_eq] at h ⊢
      refine ⟨h.1, ih h.2 ?_⟩
      simp only [List.length_cons] at hlen
      omega

theorem firstIdx_nil_sep (s : Str) : firstIdx [] s = some 0 := by
  cases s <;> simp [firstIdx, seqStartsWith]

theorem firstIdx_bound {sep s : Str} {i : Nat} (h : firstIdx sep s = some i) :
    i + sep.length ≤ s.length := by
  induction s generalizing i with
  | nil =>
    simp only [firstIdx] at h
    by_cases hs : seqStartsWith sep [] = true
    · rw [if_pos hs] at h
      cases sep with
      | nil => cases h; simp
      | cons a as => simp [seqStartsWith] at hs
    · simp [hs] at h
  | cons c rest ih =>
    simp only [firstIdx] at h
    by_cases hs : seqStartsWith sep (c :: rest) = true
    · rw [if_pos hs] at h
      cases h
      have := seqStartsWith_length_le hs
      omega
    · rw [if_neg hs] at h
      obtain ⟨j, hj, rfl⟩ := Option.map_eq_some'.mp h
      have := ih hj
      simp only [List.length_cons]
      omega

theorem firstIdx_append_some {sep t : Str} (u : Str) {i : Nat}
    (h : firstIdx sep t = some i) : firstIdx sep (t ++ u) = some i := by
  induction t generalizing i with
  | nil =>
    simp only [firstIdx] at h
    by_cases hs : seqStartsWith sep [] = true
    · rw [if_pos hs] at h
      cases h
      have hsep : sep = [] := by
        cases sep with
        | nil => rfl
        | cons a as => simp [seqStartsWith] at hs
      subst hsep
      simpa using firstIdx_nil_sep u
    · simp [hs] at h
  | cons c rest ih =>
    simp only [firstIdx] at h
    simp only [List.cons_append, firstIdx, List.append_eq]
    by_cases hs : seqStartsWith sep (c :: rest) = true
    · rw [if_pos hs] at h
      cases h
      rw [if_pos (by simpa using seqStartsWith_append u hs)]
    · rw [if_neg hs] at h
      obtain ⟨j, hj, rfl⟩ := Option.map_eq_some'.mp h
      have hb := firstIdx_bound hj
      have hs' : ¬ seqStartsWith sep (c :: (rest ++ u)) = true := by
        intro habs
        exact hs (seqStartsWith_of_append (t := c :: rest)
          (by simpa using habs) (by simp; omega))
      rw [if_neg hs', ih hj]
      rfl

theorem firstIdx_short_none {sep P R : Str} {k : Nat}
    (h : firstIdx sep (P ++ R) = some k) (hlen : P.length < k + sep.length) :
    firstIdx sep P = none := by
  cases hP : firstIdx sep P with
  | none => rfl
  | some j =>
    have h2 := firstIdx_append_some R hP
    rw [h] at h2
    cases h2
    have := firstIdx_bound hP
    omega

theorem firstIdx_long_some {sep : Str} : ∀ {P : Str} (R : Str) {k : Nat},
    firstIdx sep (P ++ R) = some k → k + sep.length ≤ P.length →
    firstIdx sep P = some k := by
  intro P
  induction P with
  | nil =>
    intro R k h hlen
    simp only [List.length_nil, Nat.le_zero] at hlen
    have hk : k = 0 := by omega
    have hsep : sep = [] := by
      cases sep with
      | nil => rfl
      | cons a as => simp [List.length_cons] at hlen
    subst hsep; subst hk
    exact firstIdx_nil_sep []
  | cons c P' ih =>
    intro R k h hlen
    simp only [List.cons_append, firstIdx, List.append_eq] at h
    simp only [firstIdx]
    by_cases hs : seqStartsWith sep (c :: (P' ++ R)) = true
    · rw [if_pos hs] at h
      cases h
      have hsw : seqStartsWith sep (c :: P') = true := by
        refine seqStartsWith_of_append (u := R) ?_ ?_
        · simpa using hs
        · simpa using hlen
      rw [if_pos hsw]
    · rw [if_neg hs] at h
      obtain ⟨j, hj, rfl⟩ := Option.map_eq_some'.mp h
      have hs' : ¬ seqStartsWith sep (c :: P') = true := by
        intro habs
        exact hs (by simpa using seqStartsWith_append R habs)
      rw [if_neg hs']
      have hP' : firstIdx sep P' = some j := by
        refine ih R hj ?_
        simp only [List.length_cons] at hlen
        omega
      rw [hP']
      rfl

/-! ## Basic facts about event runs -/

theorem runEvents_nil (st : ConnState) : runEvents st [] = st := rfl

theorem runEvents_cons (st : ConnState) (e : Event) (evs : List Event) :
    runEvents st (e :: evs) = runEvents (stepEvent st e) evs := rfl

theorem runEvents_append (st : ConnState) (a b : List Event) :
    runEvents st (a ++ b) = runEvents (runEvents st a) b :=
  List.foldl_append _ _ _ _

/-! ## The header-terminator data event -/

/-- The state reached once the header block has been parsed, with body bytes
`bodySoFar` in the buffer and settlement `out`. -/
def headerDoneState (url : Str) (hi : HeadInfo) (bodySoFar : Str) (out : Option Outcome) :
    ConnState :=
  { url := url
  , responseData := bodySoFar
  , headers := hi.headers
  , statusCode := hi.statusCode
  , isHeadersParsed := true
  , contentLength := hi.contentLength
  , chunkedTransfer := hi.chunkedTransfer
  , outcome := out }

/-- Characterization of the `data` event that completes the header block when
the whole logical stream `head ++ CRLFCRLF ++ b` arrives as the accumulated
buffer of a fresh connection: the head is parsed, the leftover bytes `b`
are retained as body, and the resolve condition of lines 151–164 decides
whether the promise settles immediately. -/
theorem onData_header_crossing (url head b : Str)
    (hfi : firstIdx crlfcrlf (head ++ crlfcrlf ++ b) = some head.length) :
    onData (initState url) (head ++ crlfcrlf ++ b) =
      (if (parseHead head).chunkedTransfer = false ∧
          ((parseHead head).contentLength = some (-1) ∨
            jsGe b.length (parseHead head).contentLength = true) then
        headerDoneState url (parseHead head) b
          (some (Outcome.success
            ⟨url, (parseHead head).statusCode, (parseHead head).headers, b⟩))
      else headerDoneState url (parseHead head) b none) := by
  have htake : (head ++ crlfcrlf ++ b).take head.length = head := by
    rw [List.append_assoc]
    exact List.take_left _ _
  have hdrop : (head ++ crlfcrlf ++ b).drop (head.length + 4) = b := by
    have h4 : head.length + 4 = (head ++ crlfcrlf).length := by simp [crlfcrlf]
    rw [h4, List.drop_left]
  simp only [onData, initState, List.nil_append, hfi, htake, hdrop, settle, mkResp,
    headerDoneState, eq_self_iff_true, if_true, ite_true]

/-- When the parsed head declares neither chunked transfer nor a content
length (`contentLength === -1`), the header-completing data event resolves the
promise immediately, with only the bytes that followed the terminator in the
buffer as body. -/
theorem onData_header_until_close (url head b : Str)
    (hfi : firstIdx crlfcrlf (head ++ crlfcrlf ++ b) = some head.length)
    (hch : (parseHead head).chunkedTransfer = false)
    (hcl : (parseHead head).contentLength = some (-1)) :
    onData (initState url) (head ++ crlfcrlf ++ b) =
      headerDoneState url (parseHead head) b
        (some (Outcome.success
          ⟨url, (parseHead head).statusCode, (parseHead head).headers, b⟩)) := by
  rw [onData_header_crossing url head b hfi, if_pos ⟨hch, Or.inl hcl⟩]

/-- After the headers are parsed with `contentLength === -1`, a further data
event only accumulates bytes: the resolve condition of lines 166–174 can
never hold. -/
theorem onData_after_until_close (url : Str) (hi : HeadInfo) (bodySoFar c : Str)
    (out : Option Outcome) (hcl : hi.contentLength = some (-1)) :
    onData (headerDoneState url hi bodySoFar out) c =
      headerDoneState url hi (bodySoFar ++ c) out := by
  simp [onData, headerDoneState, hcl]

/-- The `end` handler on any settled connection is a no-op
(`resolve` on a settled promise). -/
theorem onEnd_settled (url : Str) (hi : HeadInfo) (bodySoFar : Str) (o : Outcome) :
    onEnd (headerDoneState url hi bodySoFar (some o)) =
      headerDoneState url hi bodySoFar (some o) := by
  simp only [onEnd, headerDoneState, settle, ite_self]

/-- A data event on a settled, header-parsed connection only accumulates
bytes, whatever the framing fields hold. -/
theorem onData_parsed_settled (url : Str) (hi : HeadInfo) (D c : Str) (o : Outcome) :
    onData (headerDoneState url hi D (some o)) c =
      headerDoneState url hi (D ++ c) (some o) := by
  simp [onData, headerDoneState, settle]

/-- A data event on a pending, header-parsed connection: the resolve
condition of lines 166–174 decides whether the promise settles. -/
theorem onData_parsed_step (url : Str) (hi : HeadInfo) (D c : Str) :
    onData (headerDoneState url hi D none) c =
      (if hi.contentLength ≠ some (-1) ∧ jsGe (D ++ c).length hi.contentLength = true then
        headerDoneState url hi (D ++ c)
          (some (Outcome.success ⟨url, hi.statusCode, hi.headers, D ++ c⟩))
      else headerDoneState url hi (D ++ c) none) := by
  simp only [onData, headerDoneState, settle, mkResp]
  split
  · rename_i h
    exact absurd h (by simp)
  · by_cases h2 : hi.contentLength ≠ some (-1) ∧ jsGe (D ++ c).length hi.contentLength = true
    · rw [if_pos h2]
    · rw [if_neg h2]

/-- Discriminates the events handled by the response framer (`data`/`end`)
from the failure events (`timeout`/`error`). -/
def isTransportEvent : Event → Bool
  | .dataEv _ => true
  | .endEv => true
  | .timeoutEv => false
  | .errorEv => false

/-- Once the headers of a chunked response without a parsable content length
are parsed, no sequence of further `data`/`end` events can ever settle the
promise: the code contains no chunked decoder, the data-path resolve requires
`contentLength !== -1`, and the end-path resolve excludes `chunkedTransfer`. -/
theorem chunked_no_resolution (evs : List Event) : ∀ (st : ConnState),
    st.isHeadersParsed = true → st.chunkedTransfer = true →
    st.contentLength = some (-1) → st.outcome = none →
    evs.all isTransportEvent = true →
    (runEvents st evs).outcome = none := by
  induction evs with
  | nil =>
    intro st _ _ _ h4 _
    exact h4
  | cons e rest ih =>
    intro st h1 h2 h3 h4 hall
    simp only [List.all_cons, Bool.and_eq_true] at hall
    obtain ⟨he, hrest⟩ := hall
    rw [runEvents_cons]
    cases e with
    | dataEv c =>
      have hstep : stepEvent st (Event.dataEv c) =
          { st with responseData := st.responseData ++ c } := by
        show onData st c = _
        simp [onData, h1, h3]
      rw [hstep]
      exact ih _ h1 h2 h3 h4 hrest
    | endEv =>
      have hstep : stepEvent st Event.endEv = st := by
        show onEnd st = st
        simp [onEnd, h1, h2]
      rw [hstep]
      exact ih _ h1 h2 h3 h4 hrest
    | timeoutEv => simp [isTransportEvent] at he
    | errorEv => simp [isTransportEvent] at he

/-- While the `\r\n\r\n` terminator has not appeared in the accumulated
buffer, every data event only concatenates bytes (phase 1 of the framer). -/
theorem runData_no_headers (url : Str) : ∀ (chunks : List Str) (P : Str),
    firstIdx crlfcrlf (P ++ chunks.flatten) = none →
    runEvents { initState url with responseData := P } (chunks.map Event.dataEv) =
      { initState url with responseData := P ++ chunks.flatten } := by
  intro chunks
  induction chunks with
  | nil =>
    intro P _
    simp [runEvents]
  | cons c rest ih =>
    intro P hnone
    have hassoc : P ++ (c :: rest).flatten = (P ++ c) ++ rest.flatten := by
      simp [List.flatten_cons, List.append_assoc]
    rw [hassoc] at hnone
    have hnofind : firstIdx crlfcrlf (P ++ c) = none := by
      cases hPc : firstIdx crlfcrlf (P ++ c) with
      | none => rfl
      | some i =>
        have := firstIdx_append_some rest.flatten hPc
        rw [hnone] at this
        cases this
    have hstep : stepEvent { initState url with responseData := P } (Event.dataEv c) =
        { initState url with responseData := P ++ c } := by
      show onData { initState url with responseData := P } c = _
      simp [onData, initState, hnofind]
    rw [List.map_cons, runEvents_cons, hstep, ih (P ++ c) hnone, hassoc]

/-! ## Fixed-length framing under arbitrary transport chunking -/

/-- General form of the header-completing data event: the accumulated buffer
is `P ++ c` and the terminator is first found at index `k`. -/
theorem onData_crossing_general (url P c : Str) (k : Nat)
    (hfi' : firstIdx crlfcrlf (P ++ c) = some k) :
    onData { initState url with responseData := P } c =
      (if (parseHead ((P ++ c).take k)).chunkedTransfer = false ∧
          ((parseHead ((P ++ c).take k)).contentLength = some (-1) ∨
            jsGe ((P ++ c).drop (k + 4)).length
              (parseHead ((P ++ c).take k)).contentLength = true) then
        headerDoneState url (parseHead ((P ++ c).take k)) ((P ++ c).drop (k + 4))
          (some (Outcome.success
            ⟨url, (parseHead ((P ++ c).take k)).statusCode,
              (parseHead ((P ++ c).take k)).headers, (P ++ c).drop (k + 4)⟩))
      else headerDoneState url (parseHead ((P ++ c).take k)) ((P ++ c).drop (k + 4)) none) := by
  simp only [onData, initState, hfi', settle, mkResp, headerDoneState, eq_self_iff_true,
    if_true, ite_true]

/-- The machine state predicted after a prefix `P` of the logical stream
`head ++ CRLFCRLF ++ body` has been delivered, for a non-chunked head whose
declared content length is exactly `body.length`. -/
def clPredict (url head body : Str) (P : Str) : ConnState :=
  if P.length < head.length + 4 then
    { initState url with responseData := P }
  else
    headerDoneState url (parseHead head) (P.drop (head.length + 4))
      (if head.length + 4 + body.length ≤ P.length then
        some (Outcome.success
          ⟨url, (parseHead head).statusCode, (parseHead head).headers, body⟩)
      else none)

/-- One data event moves the machine from the predicted state at `P` to the
predicted state at `P ++ c`, for any decomposition of the logical stream as
`(P ++ c) ++ R`. -/
theorem clPredict_step (url head body : Str)
    (hfi : firstIdx crlfcrlf (head ++ crlfcrlf ++ body) = some head.length)
    (hch : (parseHead head).chunkedTransfer = false)
    (hcl : (parseHead head).contentLength = some (body.length : Int))
    (P c R : Str) (hdec : (P ++ c) ++ R = head ++ crlfcrlf ++ body) :
    onData (clPredict url head body P) c = clPredict url head body (P ++ c) := by
  have h4c : crlfcrlf.length = 4 := rfl
  have hlens := congrArg List.length hdec
  simp only [List.length_append, h4c] at hlens
  have htakeS : (head ++ crlfcrlf ++ body).take head.length = head := by
    rw [List.append_assoc]
    exact List.take_left _ _
  have hdropS : (head ++ crlfcrlf ++ body).drop (head.length + 4) = body := by
    rw [show head.length + 4 = (head ++ crlfcrlf).length from by
      simp [List.length_append, h4c]]
    exact List.drop_left _ _
  by_cases h1 : P.length < head.length + 4
  · by_cases h2 : (P ++ c).length < head.length + 4
    · -- the terminator is still incomplete: bytes only accumulate
      have hfiPc : firstIdx crlfcrlf (P ++ c) = none := by
        refine firstIdx_short_none (R := R) (k := head.length) ?_ ?_
        · rw [hdec]; exact hfi
        · simp only [List.length_append] at h2 ⊢
          omega
      simp only [clPredict, if_pos h1, if_pos h2]
      simp [onData, initState, hfiPc]
    · -- this event completes the header block
      have hfiPc : firstIdx crlfcrlf (P ++ c) = some head.length := by
        refine firstIdx_long_some R ?_ ?_
        · rw [hdec]; exact hfi
        · simp only [List.length_append] at h2 ⊢
          omega
      have hPc_take : (P ++ c).take head.length = head := by
        have hc2 := congrArg (List.take head.length) hdec
        rw [htakeS] at hc2
        rw [List.take_append_eq_append_take,
          show head.length - (P ++ c).length = 0 from by
            simp only [List.length_append] at h2 ⊢; omega,
          List.take_zero, List.append_nil] at hc2
        exact hc2
      have hbody : (P ++ c).drop (head.length + 4) ++ R = body := by
        have hc3 := congrArg (List.drop (head.length + 4)) hdec
        rw [hdropS] at hc3
        rw [List.drop_append_eq_append_drop,
          show head.length + 4 - (P ++ c).length = 0 from by
            simp only [List.length_append] at h2 ⊢; omega,
          List.drop_zero] at hc3
        exact hc3
      have hDlen : ((P ++ c).drop (head.length + 4)).length + R.length = body.length := by
        have := congrArg List.length hbody
        simpa [List.length_append] using this
      rw [show clPredict url head body P = { initState url with responseData := P } from by
        simp only [clPredict, if_pos h1]]
      rw [onData_crossing_general url P c head.length hfiPc, hPc_take]
      by_cases h3 : head.length + 4 + body.length ≤ (P ++ c).length
      · -- the whole stream has arrived with this event: resolve
        have hR : R = [] := by
          apply List.length_eq_zero.mp
          simp only [List.length_append] at h3
          omega
        have hD : (P ++ c).drop (head.length + 4) = body := by
          rw [hR, List.append_nil] at hbody
          exact hbody
        have hside : (parseHead head).chunkedTransfer = false ∧
            ((parseHead head).contentLength = some (-1) ∨
              jsGe ((P ++ c).drop (head.length + 4)).length
                (parseHead head).contentLength = true) := by
          refine ⟨hch, Or.inr ?_⟩
          rw [hcl, hD]
          simp [jsGe]
        rw [if_pos hside]
        simp only [clPredict, if_neg h2, if_pos h3, hD]
      · -- body still incomplete: no resolution
        have hside : ¬ ((parseHead head).chunkedTransfer = false ∧
            ((parseHead head).contentLength = some (-1) ∨
              jsGe ((P ++ c).drop (head.length + 4)).length
                (parseHead head).contentLength = true)) := by
          rintro ⟨-, hor⟩
          rcases hor with hbad | hbad
          · rw [hcl] at hbad
            have hm1 : (body.length : Int) = -1 := Option.some.inj hbad
            omega
          · rw [hcl] at hbad
            simp only [jsGe, decide_eq_true_eq] at hbad
            have hRne : R.length ≠ 0 := by
              simp only [List.length_append] at h3
              omega
            have hlt : ((P ++ c).drop (head.length + 4)).length < body.length := by
              omega
            omega
        rw [if_neg hside]
        simp only [clPredict, if_neg h2, if_neg h3]
  · -- headers were already parsed before this event
    have h2 : ¬ (P ++ c).length < head.length + 4 := by
      simp only [List.length_append]
      omega
    have hrd : (P ++ c).drop (head.length + 4) = P.drop (head.length + 4) ++ c := by
      rw [List.drop_append_eq_append_drop,
        show head.length + 4 - P.length = 0 from by omega, List.drop_zero]
    have hbody : (P ++ c).drop (head.length + 4) ++ R = body := by
      have hc3 := congrArg (List.drop (head.length + 4)) hdec
      rw [hdropS] at hc3
      rw [List.drop_append_eq_append_drop,
        show head.length + 4 - (P ++ c).length = 0 from by
          simp only [List.length_append]; omega,
        List.drop_zero] at hc3
      exact hc3
    have hDlen : ((P ++ c).drop (head.length + 4)).length + R.length = body.length := by
      have := congrArg List.length hbody
      simpa [List.length_append] using this
    have hclne : (parseHead head).contentLength ≠ some (-1) := by
      rw [hcl]
      intro hbad
      have hm1 : (body.length : Int) = -1 := Option.some.inj hbad
      omega
    by_cases hP3 : head.length + 4 + body.length ≤ P.length
    · -- already resolved before this event: the data event is a no-op
      have hc0 : c = [] := by
        apply List.length_eq_zero.mp
        omega
      subst hc0
      rw [List.append_nil]
      rw [show clPredict url head body P =
          headerDoneState url (parseHead head) (P.drop (head.length + 4))
            (some (Outcome.success ⟨url, (parseHead head).statusCode,
              (parseHead head).headers, body⟩)) from by
        simp only [clPredict, if_neg h1, if_pos hP3]]
      rw [onData_parsed_settled, List.append_nil]
    · -- pending before this event
      rw [show clPredict url head body P =
          headerDoneState url (parseHead head) (P.drop (head.length + 4)) none from by
        simp only [clPredict, if_neg h1, if_neg hP3]]
      rw [onData_parsed_step]
      by_cases h3 : head.length + 4 + body.length ≤ (P ++ c).length
      · -- this event completes the body: resolve with exactly the body bytes
        have hR : R = [] := by
          apply List.length_eq_zero.mp
          simp only [List.length_append] at h3
          omega
        have hD' : P.drop (head.length + 4) ++ c = body := by
          rw [← hrd]
          rw [hR, List.append_nil] at hbody
          exact hbody
        have hge : jsGe (P.drop (head.length + 4) ++ c).length
            (parseHead head).contentLength = true := by
          rw [hcl, hD']
          simp [jsGe]
        rw [if_pos ⟨hclne, hge⟩]
        simp only [clPredict, if_neg h2, if_pos h3, hrd, hD']
      · -- still incomplete: bytes only accumulate
        have hnge : ¬ jsGe (P.drop (head.length + 4) ++ c).length
            (parseHead head).contentLength = true := by
          rw [hcl]
          simp only [jsGe, decide_eq_true_eq]
          intro hbad
          rw [← hrd] at hbad
          simp only [List.length_drop, List.length_append] at hbad h3
          omega
        rw [if_neg (fun h => hnge h.2)]
        simp only [clPredict, if_neg h2, if_neg h3, hrd]

/-- Folding data events over any chunk list whose bytes complete the logical
stream drives the machine through the predicted states. -/
theorem clPredict_run (url head body : Str)
    (hfi : firstIdx crlfcrlf (head ++ crlfcrlf ++ body) = some head.length)
    (hch : (parseHead head).chunkedTransfer = false)
    (hcl : (parseHead head).contentLength = some (body.length : Int)) :
    ∀ (chunks : List Str) (P : Str), P ++ chunks.flatten = head ++ crlfcrlf ++ body →
      runEvents (clPredict url head body P) (chunks.map Event.dataEv) =
        clPredict url head body (P ++ chunks.flatten) := by
  intro chunks
  induction chunks with
  | nil =>
    intro P _
    simp [runEvents]
  | cons c rest ih =>
    intro P h
    have hassoc : P ++ (c :: rest).flatten = (P ++ c) ++ rest.flatten := by
      simp [List.flatten_cons, List.append_assoc]
    have hdec : (P ++ c) ++ rest.flatten = head ++ crlfcrlf ++ body := by
      rw [← hassoc]
      exact h
    rw [List.map_cons, runEvents_cons,
      show stepEvent (clPredict url head body P) (Event.dataEv c) =
        onData (clPredict url head body P) c from rfl,
      clPredict_step url head body hfi hch hcl P c rest.flatten hdec,
      ih (P ++ c) hdec, hassoc]

/-- Claim C4 (confirmed): for every well-formed response whose parsed headers
are not chunked and declare `content-length` equal to the byte length of the
logical body, and for every way of splitting the logical byte stream
`head ++ CRLFCRLF ++ body` into transport chunks (including boundaries inside
the CRLFCRLF terminator), the operation resolves with exactly the declared
body — the same completed response for every split, with a body of exactly
the declared number of bytes. -/
theorem c4_content_length_exact_body (url head body : Str) (chunks : List Str)
    (hsplit : chunks.flatten = head ++ crlfcrlf ++ body)
    (hfi : firstIdx crlfcrlf (head ++ crlfcrlf ++ body) = some head.length)
    (hch : (parseHead head).chunkedTransfer = false)
    (hcl : (parseHead head).contentLength = some (body.length : Int)) :
    (runEvents (initState url) (chunks.map Event.dataEv)).outcome =
      some (Outcome.success
        { url := url, status := (parseHead head).statusCode
        , headers := (parseHead head).headers, body := body }) := by
  have h0 : clPredict url head body [] = initState url := by
    have hlt : ([] : Str).length < head.length + 4 := by
      simp only [List.length_nil]
      omega
    simp only [clPredict, if_pos hlt]
    rfl
  rw [← h0, clPredict_run url head body hfi hch hcl chunks [] (by simpa using hsplit)]
  rw [show ([] : Str) ++ chunks.flatten = head ++ crlfcrlf ++ body from by
    simpa using hsplit]
  have h4c : crlfcrlf.length = 4 := rfl
  have hge : ¬ (head ++ crlfcrlf ++ body).length < head.length + 4 := by
    simp only [List.length_append, h4c]
    omega
  have hfull : head.length + 4 + body.length ≤ (head ++ crlfcrlf ++ body).length := by
    simp only [List.length_append, h4c]
    omega
  simp only [clPredict, if_neg hge, if_pos hfull, headerDoneState]

def c4Url : Str := "http://h:80/".data

def c4Head : Str := "HTTP/1.1 200 OK\r\nContent-Length: 4".data

def c4Body : Str := "okay".data

def c4Chunks : List Str :=
  ["HTTP/1.1 200 OK\r\nContent-Le".data, "ngth: 4\r\n\r".data, "\nok".data, "ay".data]

/-- Witness for C4, at a split whose boundaries fall inside the header block
and inside the CRLFCRLF terminator itself. -/
theorem c4_content_length_exact_body_witness :
    (c4Chunks.flatten = c4Head ++ crlfcrlf ++ c4Body ∧
      firstIdx crlfcrlf (c4Head ++ crlfcrlf ++ c4Body) = some c4Head.length ∧
      (parseHead c4Head).chunkedTransfer = false ∧
      (parseHead c4Head).contentLength = some (c4Body.length : Int)) ∧
    (runEvents (initState c4Url) (c4Chunks.map Event.dataEv)).outcome =
      some (Outcome.success
        { url := c4Url, status := (parseHead c4Head).statusCode
        , headers := (parseHead c4Head).headers, body := c4Body }) :=
  ⟨⟨by decide, by decide, by decide, by decide⟩,
    c4_content_length_exact_body c4Url c4Head c4Body c4Chunks (by decide) (by decide)
      (by decide) (by decide)⟩

/-! ## Remaining claims -/

def demoUrl : Str := "http://example.com:80/".data

/-- Claim C10 (confirmed): if the transport signals end-of-stream before the
CRLFCRLF header terminator has ever been received, the operation resolves
successfully (it does not reject) with status code 0, an empty header
mapping, and every byte received so far as the body. -/
theorem c10_end_before_headers_resolves (url : Str) (chunks : List Str)
    (hna : firstIdx crlfcrlf chunks.flatten = none) :
    (runEvents (initState url) (chunks.map Event.dataEv ++ [Event.endEv])).outcome =
      some (Outcome.success
        { url := url, status := some 0, headers := [], body := chunks.flatten }) := by
  rw [runEvents_append]
  have hrun := runData_no_headers url chunks [] (by simpa using hna)
  rw [show ({ initState url with responseData := ([] : Str) } : ConnState) = initState url
    from rfl] at hrun
  rw [hrun, show runEvents { initState url with responseData := ([] : Str) ++ chunks.flatten }
      [Event.endEv] = onEnd { initState url with responseData := ([] : Str) ++ chunks.flatten }
    from rfl]
  simp [onEnd, settle, initState, mkResp]

def c10Chunks : List Str := ["HTTP/1.1 200 OK\r\npart".data, "ial head".data]

/-- Witness for C10 at a concrete truncated head. -/
theorem c10_end_before_headers_resolves_witness :
    firstIdx crlfcrlf c10Chunks.flatten = none ∧
    (runEvents (initState demoUrl) (c10Chunks.map Event.dataEv ++ [Event.endEv])).outcome =
      some (Outcome.success
        { url := demoUrl, status := some 0, headers := [], body := c10Chunks.flatten }) :=
  ⟨by decide, c10_end_before_headers_resolves demoUrl c10Chunks (by decide)⟩

/-- Claim C1 (corrected, counterexample): the spec's three-chunk chunked
scenario does not complete with status 201 and body "test" — the machine
parses status 201 and records chunked transfer, but after all three chunks
and end-of-stream the promise is still pending (`outcome = none`). -/
theorem c1_chunked_scenario_never_resolves :
    (runEvents (initState demoUrl)
        [Event.dataEv "HTTP/1.1 201 Created\r\nTra".data,
          Event.dataEv "nsfer-Encoding: chunked\r\n\r\n4\r\ntes".data,
          Event.dataEv "t\r\n0\r\n\r\n".data, Event.endEv]).outcome = none ∧
    (runEvents (initState demoUrl)
        [Event.dataEv "HTTP/1.1 201 Created\r\nTra".data,
          Event.dataEv "nsfer-Encoding: chunked\r\n\r\n4\r\ntes".data,
          Event.dataEv "t\r\n0\r\n\r\n".data, Event.endEv]).statusCode = some 201 ∧
    (runEvents (initState demoUrl)
        [Event.dataEv "HTTP/1.1 201 Created\r\nTra".data,
          Event.dataEv "nsfer-Encoding: chunked\r\n\r\n4\r\ntes".data,
          Event.dataEv "t\r\n0\r\n\r\n".data, Event.endEv]).chunkedTransfer = true :=
  ⟨by decide, by decide, by decide⟩

/-- Claim C1 (corrected, theorem): the client performs no chunked decoding at
all.  Once the headers of a response with `transfer-encoding: chunked` and no
parsable `content-length` are parsed, no sequence of further `data`/`end`
events can resolve (or reject) the operation; in particular the spec's
three-chunk scenario never completes. -/
theorem c1_chunked_no_decoding (evs : List Event) : ∀ (st : ConnState),
    st.isHeadersParsed = true → st.chunkedTransfer = true →
    st.contentLength = some (-1) → st.outcome = none →
    evs.all isTransportEvent = true →
    (runEvents st evs).outcome = none :=
  chunked_no_resolution evs

def c1State : ConnState :=
  runEvents (initState demoUrl)
    [Event.dataEv "HTTP/1.1 201 Created\r\nTra".data,
      Event.dataEv "nsfer-Encoding: chunked\r\n\r\n4\r\ntes".data]

/-- Witness for C1's theorem at the post-header state of the spec scenario. -/
theorem c1_chunked_no_decoding_witness :
    (c1State.isHeadersParsed = true ∧ c1State.chunkedTransfer = true ∧
      c1State.contentLength = some (-1) ∧ c1State.outcome = none ∧
      ([Event.dataEv "t\r\n0\r\n\r\n".data, Event.endEv].all isTransportEvent = true)) ∧
    (runEvents c1State [Event.dataEv "t\r\n0\r\n\r\n".data, Event.endEv]).outcome = none :=
  ⟨⟨by decide, by decide, by decide, by decide, by decide⟩,
    c1_chunked_no_decoding [Event.dataEv "t\r\n0\r\n\r\n".data, Event.endEv] c1State
      (by decide) (by decide) (by decide) (by decide) (by decide)⟩

/-- Claim C2 (corrected, counterexample): a response with neither
`content-length` nor chunked transfer-encoding completes at the data event
that finishes the headers — before any end-of-stream — and delivers only the
body bytes buffered at that moment ("ab"), not all bytes received up to the
close ("abcd"). -/
theorem c2_until_close_counterexample :
    (runEvents (initState demoUrl)
        [Event.dataEv "HTTP/1.1 200 OK\r\n\r\nab".data]).outcome.isSome = true ∧
    (runEvents (initState demoUrl)
        [Event.dataEv "HTTP/1.1 200 OK\r\n\r\nab".data, Event.dataEv "cd".data,
          Event.endEv]).outcome =
      some (Outcome.success { url := demoUrl, status := some 200, headers := [], body := "ab".data }) ∧
    ("ab".data : Str) ≠ "abcd".data :=
  ⟨by decide, by decide, by decide⟩

/-- Claim C2 (corrected, theorem): for a response whose parsed head is
neither chunked nor carries a parsable `content-length`, the operation
resolves already at the header-parse data event, with body exactly the bytes
that followed the terminator in that event's buffer; bytes arriving
afterwards and the eventual end-of-stream do not change the settled value. -/
theorem c2_resolves_at_header_parse (url head b1 b2 : Str)
    (hfi : firstIdx crlfcrlf (head ++ crlfcrlf ++ b1) = some head.length)
    (hch : (parseHead head).chunkedTransfer = false)
    (hcl : (parseHead head).contentLength = some (-1)) :
    (runEvents (initState url) [Event.dataEv (head ++ crlfcrlf ++ b1)]).outcome =
      some (Outcome.success
        ⟨url, (parseHead head).statusCode, (parseHead head).headers, b1⟩) ∧
    (runEvents (initState url)
        [Event.dataEv (head ++ crlfcrlf ++ b1), Event.dataEv b2, Event.endEv]).outcome =
      some (Outcome.success
        ⟨url, (parseHead head).statusCode, (parseHead head).headers, b1⟩) := by
  have h1 := onData_header_until_close url head b1 hfi hch hcl
  constructor
  · show (onData (initState url) (head ++ crlfcrlf ++ b1)).outcome = _
    rw [h1]
    rfl
  · show (onEnd (onData (onData (initState url) (head ++ crlfcrlf ++ b1)) b2)).outcome = _
    rw [h1, onData_after_until_close url (parseHead head) b1 b2 _ hcl, onEnd_settled]
    rfl

/-- Witness for C2's theorem on a concrete stream split. -/
theorem c2_resolves_at_header_parse_witness :
    (firstIdx crlfcrlf ("HTTP/1.1 200 OK".data ++ crlfcrlf ++ "ab".data) =
        some ("HTTP/1.1 200 OK".data : Str).length ∧
      (parseHead "HTTP/1.1 200 OK".data).chunkedTransfer = false ∧
      (parseHead "HTTP/1.1 200 OK".data).contentLength = some (-1)) ∧
    ((runEvents (initState demoUrl)
        [Event.dataEv ("HTTP/1.1 200 OK".data ++ crlfcrlf ++ "ab".data)]).outcome =
      some (Outcome.success
        ⟨demoUrl, (parseHead "HTTP/1.1 200 OK".data).statusCode,
          (parseHead "HTTP/1.1 200 OK".data).headers, "ab".data⟩) ∧
    (runEvents (initState demoUrl)
        [Event.dataEv ("HTTP/1.1 200 OK".data ++ crlfcrlf ++ "ab".data),
          Event.dataEv "cd".data, Event.endEv]).outcome =
      some (Outcome.success
        ⟨demoUrl, (parseHead "HTTP/1.1 200 OK".data).statusCode,
          (parseHead "HTTP/1.1 200 OK".data).headers, "ab".data⟩)) :=
  ⟨⟨by decide, by decide, by decide⟩,
    c2_resolves_at_header_parse demoUrl "HTTP/1.1 200 OK".data "ab".data "cd".data
      (by decide) (by decide) (by decide)⟩

/-- Claim C3 (corrected, counterexample): a fixed-length response truncated by
end-of-stream does not fail with any malformed-response error: after the
premature close the promise is still pending, and the only failure that can
ever follow is the socket timeout (`"Connection timed out"`), a different
error kind. -/
theorem c3_premature_close_counterexample :
    (runEvents (initState demoUrl)
        [Event.dataEv "HTTP/1.1 200 OK\r\nContent-Length: 5\r\n\r\nab".data,
          Event.endEv]).outcome = none ∧
    (runEvents (initState demoUrl)
        [Event.dataEv "HTTP/1.1 200 OK\r\nContent-Length: 5\r\n\r\nab".data,
          Event.endEv, Event.timeoutEv]).outcome = some (Outcome.failure JsErr.timedOut) :=
  ⟨by decide, by decide⟩

/-- Claim C3 (corrected, theorem): once the headers are parsed, whenever the
framing mode is not until-close (a parsable `content-length`, or chunked
transfer), the `end` handler ignores end-of-stream entirely: it neither
resolves nor rejects, so a premature close yields no truncated success and no
error — the code has no malformed-response outcome at all. -/
theorem c3_premature_close_ignored (st : ConnState)
    (hp : st.isHeadersParsed = true)
    (h : ¬ (st.contentLength = some (-1) ∧ st.chunkedTransfer = false)) :
    onEnd st = st := by
  simp only [onEnd]
  rw [if_neg]
  rintro (hbad | hbad)
  · rw [hp] at hbad
    exact absurd hbad (by simp)
  · exact h hbad

def c3State : ConnState :=
  runEvents (initState demoUrl)
    [Event.dataEv "HTTP/1.1 200 OK\r\nContent-Length: 5\r\n\r\nab".data]

/-- Witness for C3's theorem at the parsed state of a truncated
fixed-length response. -/
theorem c3_premature_close_ignored_witness :
    (c3State.isHeadersParsed = true ∧
      ¬ (c3State.contentLength = some (-1) ∧ c3State.chunkedTransfer = false)) ∧
    onEnd c3State = c3State :=
  ⟨⟨by decide, by decide⟩, c3_premature_close_ignored c3State (by decide) (by decide)⟩

/-- Claim C6 (corrected, counterexample): a response whose status line
`"NOPE"` matches no `HTTP/<version> <code> <reason>` form does not fail: the
operation completes successfully with a `NaN` status code (modelled `none`),
empty headers, and the trailing bytes as body. -/
theorem c6_malformed_status_counterexample :
    (runEvents (initState demoUrl)
        [Event.dataEv "NOPE\r\n\r\nhi".data, Event.endEv]).outcome =
      some (Outcome.success { url := demoUrl, status := none, headers := [], body := "hi".data }) :=
  by decide

/-- Claim C6 (corrected, theorem): an unparsable status line never causes a
failure.  If the second space-separated token of the status line does not
parse as a number, the status code is `NaN` (`none`) and the operation still
completes according to the normal framing rules (shown here for the
until-close framing of the counterexample). -/
theorem c6_malformed_status_resolves (url head b : Str)
    (hfi : firstIdx crlfcrlf (head ++ crlfcrlf ++ b) = some head.length)
    (hstat : (parseHead head).statusCode = none)
    (hch : (parseHead head).chunkedTransfer = false)
    (hcl : (parseHead head).contentLength = some (-1)) :
    (runEvents (initState url) [Event.dataEv (head ++ crlfcrlf ++ b), Event.endEv]).outcome =
      some (Outcome.success ⟨url, none, (parseHead head).headers, b⟩) := by
  show (onEnd (onData (initState url) (head ++ crlfcrlf ++ b))).outcome = _
  rw [onData_header_until_close url head b hfi hch hcl, onEnd_settled]
  rw [show (headerDoneState url (parseHead head) b
      (some (Outcome.success ⟨url, (parseHead head).statusCode,
        (parseHead head).headers, b⟩))).outcome =
    some (Outcome.success ⟨url, (parseHead head).statusCode,
      (parseHead head).headers, b⟩) from rfl]
  rw [hstat]

/-- Witness for C6's theorem at the concrete malformed status line. -/
theorem c6_malformed_status_resolves_witness :
    (firstIdx crlfcrlf ("NOPE".data ++ crlfcrlf ++ "hi".data) =
        some ("NOPE".data : Str).length ∧
      (parseHead "NOPE".data).statusCode = none ∧
      (parseHead "NOPE".data).chunkedTransfer = false ∧
      (parseHead "NOPE".data).contentLength = some (-1)) ∧
    (runEvents (initState demoUrl)
        [Event.dataEv ("NOPE".data ++ crlfcrlf ++ "hi".data), Event.endEv]).outcome =
      some (Outcome.success ⟨demoUrl, none, (parseHead "NOPE".data).headers, "hi".data⟩) :=
  ⟨⟨by decide, by decide, by decide, by decide⟩,
    c6_malformed_status_resolves demoUrl "NOPE".data "hi".data
      (by decide) (by decide) (by decide) (by decide)⟩

/-- Claim C9 (confirmed): the `ok` flag of `getRawResponse()` is true exactly
for status codes in [200, 300); a `NaN` status (`none`) is never ok. -/
theorem c9_ok_iff_2xx (url bodyStr : Str) (hs : Headers) (status : Option Int) :
    ((getRawResponse { url := url, status := status, headers := hs, body := bodyStr }).ok
        = true) ↔
      ∃ c : Int, status = some c ∧ 200 ≤ c ∧ c < 300 := by
  cases status with
  | none => simp [getRawResponse, jsGeI, jsLtI]
  | some v =>
    simp only [getRawResponse, jsGeI, jsLtI, Bool.and_eq_true, decide_eq_true_eq,
      Option.some.injEq]
    constructor
    · rintro ⟨hg, hl⟩
      exact ⟨v, rfl, hg, hl⟩
    · rintro ⟨c, rfl, hg, hl⟩
      exact ⟨hg, hl⟩

/-! ## Request encoding: header-injection lemmas -/

/-- Number of entries of `m` stored under exactly the key `k`. -/
def countKey {α : Type} : List (Str × α) → Str → Nat
  | [], _ => 0
  | (k0, _) :: rest, k => (if k0 = k then 1 else 0) + countKey rest k

theorem getAssoc_setAssoc_self {α : Type} (m : List (Str × α)) (k : Str) (v : α) :
    getAssoc (setAssoc m k v) k = some v := by
  induction m with
  | nil => simp [setAssoc, getAssoc]
  | cons kv rest ih =>
    obtain ⟨k0, v0⟩ := kv
    by_cases h : k0 = k
    · subst h
      simp [setAssoc, getAssoc]
    · simp [setAssoc, getAssoc, h, ih]

theorem getAssoc_setAssoc_ne {α : Type} (m : List (Str × α)) (k k' : Str) (v : α)
    (hne : k' ≠ k) : getAssoc (setAssoc m k v) k' = getAssoc m k' := by
  induction m with
  | nil => simp [setAssoc, getAssoc, Ne.symm hne]
  | cons kv rest ih =>
    obtain ⟨k0, v0⟩ := kv
    by_cases h : k0 = k
    · subst h
      simp [setAssoc, getAssoc, Ne.symm hne]
    · simp [setAssoc, getAssoc, h, ih]

theorem countKey_eq_zero_of_not_mem {α : Type} (m : List (Str × α)) (k : Str)
    (h : k ∉ m.map Prod.fst) : countKey m k = 0 := by
  induction m with
  | nil => rfl
  | cons kv rest ih =>
    obtain ⟨k0, v0⟩ := kv
    simp only [List.map_cons, List.mem_cons] at h
    push_neg at h
    simp [countKey, Ne.symm h.1, ih h.2]

theorem countKey_setAssoc_self {α : Type} (m : List (Str × α)) (k : Str) (v : α)
    (hnd : (m.map Prod.fst).Nodup) : countKey (setAssoc m k v) k = 1 := by
  induction m with
  | nil => simp [setAssoc, countKey]
  | cons kv rest ih =>
    obtain ⟨k0, v0⟩ := kv
    simp only [List.map_cons, List.nodup_cons] at hnd
    by_cases h : k0 = k
    · subst h
      simp [setAssoc, countKey, countKey_eq_zero_of_not_mem rest k0 hnd.1]
    · simp [setAssoc, countKey, h, ih hnd.2]

theorem countKey_setAssoc_ne {α : Type} (m : List (Str × α)) (k k' : Str) (v : α)
    (hne : k' ≠ k) : countKey (setAssoc m k v) k' = countKey m k' := by
  induction m with
  | nil => simp [setAssoc, countKey, Ne.symm hne]
  | cons kv rest ih =>
    obtain ⟨k0, v0⟩ := kv
    by_cases h : k0 = k
    · subst h
      simp [setAssoc, countKey, Ne.symm hne]
    · simp [setAssoc, countKey, h, ih]

theorem mem_keys_setAssoc {α : Type} (m : List (Str × α)) (k : Str) (v : α) (x : Str)
    (h : x ∈ (setAssoc m k v).map Prod.fst) : x ∈ m.map Prod.fst ∨ x = k := by
  induction m with
  | nil =>
    simp only [setAssoc, List.map_cons, List.map_nil, List.mem_singleton] at h
    exact Or.inr h
  | cons kv rest ih =>
    obtain ⟨k0, v0⟩ := kv
    by_cases hk : k0 = k
    · subst hk
      rw [show setAssoc ((k0, v0) :: rest) k0 v = (k0, v) :: rest from by
        simp [setAssoc]] at h
      simp only [List.map_cons, List.mem_cons] at h ⊢
      rcases h with h | h
      · exact Or.inl (Or.inl h)
      · exact Or.inl (Or.inr h)
    · rw [show setAssoc ((k0, v0) :: rest) k v = (k0, v0) :: setAssoc rest k v from by
        simp [setAssoc, hk]] at h
      simp only [List.map_cons, List.mem_cons] at h ⊢
      rcases h with h | h
      · exact Or.inl (Or.inl h)
      · rcases ih h with h2 | h2
        · exact Or.inl (Or.inr h2)
        · exact Or.inr h2

theorem keysNodup_setAssoc {α : Type} (m : List (Str × α)) (k : Str) (v : α)
    (hnd : (m.map Prod.fst).Nodup) : ((setAssoc m k v).map Prod.fst).Nodup := by
  induction m with
  | nil => simp [setAssoc]
  | cons kv rest ih =>
    obtain ⟨k0, v0⟩ := kv
    simp only [List.map_cons, List.nodup_cons] at hnd
    by_cases h : k0 = k
    · subst h
      rw [show setAssoc ((k0, v0) :: rest) k0 v = (k0, v) :: rest from by
        simp [setAssoc]]
      simp only [List.map_cons, List.nodup_cons]
      exact ⟨hnd.1, hnd.2⟩
    · rw [show setAssoc ((k0, v0) :: rest) k v = (k0, v0) :: setAssoc rest k v from by
        simp [setAssoc, h]]
      simp only [List.map_cons, List.nodup_cons]
      refine ⟨fun hmem => ?_, ih hnd.2⟩
      rcases mem_keys_setAssoc rest k v k0 hmem with h2 | h2
      · exact hnd.1 h2
      · exact h h2

theorem mem_setAssoc_of_ne {α : Type} (m : List (Str × α)) (k : Str) (v : α)
    (kv : Str × α) (hmem : kv ∈ m) (hne : kv.1 ≠ k) : kv ∈ setAssoc m k v := by
  induction m with
  | nil => cases hmem
  | cons kv0 rest ih =>
    obtain ⟨k0, v0⟩ := kv0
    by_cases h : k0 = k
    · subst h
      rw [show setAssoc ((k0, v0) :: rest) k0 v = (k0, v) :: rest from by
        simp [setAssoc]]
      rcases List.mem_cons.mp hmem with h2 | h2
      · exact absurd (by rw [h2]) hne
      · exact List.mem_cons.mpr (Or.inr h2)
    · rw [show setAssoc ((k0, v0) :: rest) k v = (k0, v0) :: setAssoc rest k v from by
        simp [setAssoc, h]]
      rcases List.mem_cons.mp hmem with h2 | h2
      · exact List.mem_cons.mpr (Or.inl h2)
      · exact List.mem_cons.mpr (Or.inr (ih h2))

/-- The serialization loop (lines 80–82) written as one flattened line per
entry. -/
theorem foldl_headerLines (m : List (Str × Str)) (acc : Str) :
    m.foldl (fun acc kv => acc ++ kv.1 ++ colonSp ++ kv.2 ++ crlf) acc =
      acc ++ (m.map (fun kv => kv.1 ++ colonSp ++ kv.2 ++ crlf)).flatten := by
  induction m generalizing acc with
  | nil => simp
  | cons kv rest ih =>
    rw [List.foldl_cons, ih, List.map_cons, List.flatten_cons]
    simp [List.append_assoc]

/-- Claim C5 (corrected, counterexample): a caller-supplied header whose key
differs from `"Content-Length"` only in case is not overridden — the encoded
request carries both the caller's `content-length: 999` line and the injected
`Content-Length: 2` line, so the injected header does not override every
caller-supplied value and (case-insensitively) is not present exactly once. -/
theorem c5_header_injection_counterexample :
    buildRequest "GET".data "/".data "h".data
        [("content-length".data, "999".data)] (some "ab".data) =
      ("GET / HTTP/1.1\r\ncontent-length: 999\r\nHost: h\r\nContent-Length: 2\r\n\r\nab").data :=
  by decide

/-- Claim C5 (corrected, theorem): the encoded request is exactly the request
line, one `key: value` CRLF line per entry of the final header object, a
blank CRLF line, and the body verbatim, where the final header object is the
caller's object with `Host` and then `Content-Length` written into it.  The
injected values override a caller entry only under the exact-case key; they
are present exactly once under their exact keys (given the caller's object
has no duplicate keys, as a JS object cannot), and every caller entry under
any other key — including other casings of `host`/`content-length` — is
retained. -/
theorem c5_request_encoding_amended (method path host : Str)
    (headers : List (Str × Str)) (requestData : Option Str)
    (hnd : (headers.map Prod.fst).Nodup) :
    buildRequest method path host headers requestData =
      method ++ spStr ++ path ++ httpTail ++
        (((setAssoc (setAssoc headers hostLit host) clHdrLit
            (natToStr (utf8Len (requestData.getD [])))).map
          (fun kv => kv.1 ++ colonSp ++ kv.2 ++ crlf)).flatten) ++ crlf ++
        requestData.getD [] ∧
    getAssoc (setAssoc (setAssoc headers hostLit host) clHdrLit
        (natToStr (utf8Len (requestData.getD [])))) hostLit = some host ∧
    getAssoc (setAssoc (setAssoc headers hostLit host) clHdrLit
        (natToStr (utf8Len (requestData.getD [])))) clHdrLit =
      some (natToStr (utf8Len (requestData.getD []))) ∧
    countKey (setAssoc (setAssoc headers hostLit host) clHdrLit
        (natToStr (utf8Len (requestData.getD [])))) hostLit = 1 ∧
    countKey (setAssoc (setAssoc headers hostLit host) clHdrLit
        (natToStr (utf8Len (requestData.getD [])))) clHdrLit = 1 ∧
    (∀ kv : Str × Str, kv ∈ headers → kv.1 ≠ hostLit → kv.1 ≠ clHdrLit →
      kv ∈ setAssoc (setAssoc headers hostLit host) clHdrLit
        (natToStr (utf8Len (requestData.getD [])))) := by
  have hHostCl : hostLit ≠ clHdrLit := by decide
  refine ⟨?_, ?_, ?_, ?_, ?_, ?_⟩
  · simp only [buildRequest]
    rw [foldl_headerLines]
  · rw [getAssoc_setAssoc_ne _ _ _ _ hHostCl, getAssoc_setAssoc_self]
  · rw [getAssoc_setAssoc_self]
  · rw [countKey_setAssoc_ne _ _ _ _ hHostCl]
    exact countKey_setAssoc_self _ _ _ hnd
  · exact countKey_setAssoc_self _ _ _ (keysNodup_setAssoc _ _ _ hnd)
  · intro kv hmem hneH hneC
    exact mem_setAssoc_of_ne _ _ _ kv (mem_setAssoc_of_ne _ _ _ kv hmem hneH) hneC

/-- Witness for C5's theorem at a concrete request with an authorization
header and a differently-cased caller `content-length`. -/
theorem c5_request_encoding_amended_witness :
    ((([("Authorization".data, "Bearer sk".data),
        ("content-length".data, "999".data)] : List (Str × Str)).map Prod.fst).Nodup) ∧
    (buildRequest "POST".data "/v1/charges".data "api.stripe.com".data
        [("Authorization".data, "Bearer sk".data), ("content-length".data, "999".data)]
        (some "amount=5".data) =
      "POST".data ++ spStr ++ "/v1/charges".data ++ httpTail ++
        (((setAssoc (setAssoc
            [("Authorization".data, "Bearer sk".data), ("content-length".data, "999".data)]
            hostLit "api.stripe.com".data) clHdrLit
            (natToStr (utf8Len ((some "amount=5".data).getD [])))).map
          (fun kv => kv.1 ++ colonSp ++ kv.2 ++ crlf)).flatten) ++ crlf ++
        (some "amount=5".data).getD [] ∧
      getAssoc (setAssoc (setAssoc
          [("Authorization".data, "Bearer sk".data), ("content-length".data, "999".data)]
          hostLit "api.stripe.com".data) clHdrLit
          (natToStr (utf8Len ((some "amount=5".data).getD [])))) hostLit =
        some "api.stripe.com".data ∧
      getAssoc (setAssoc (setAssoc
          [("Authorization".data, "Bearer sk".data), ("content-length".data, "999".data)]
          hostLit "api.stripe.com".data) clHdrLit
          (natToStr (utf8Len ((some "amount=5".data).getD [])))) clHdrLit =
        some (natToStr (utf8Len ((some "amount=5".data).getD []))) ∧
      countKey (setAssoc (setAssoc
          [("Authorization".data, "Bearer sk".data), ("content-length".data, "999".data)]
          hostLit "api.stripe.com".data) clHdrLit
          (natToStr (utf8Len ((some "amount=5".data).getD [])))) hostLit = 1 ∧
      countKey (setAssoc (setAssoc
          [("Authorization".data, "Bearer sk".data), ("content-length".data, "999".data)]
          hostLit "api.stripe.com".data) clHdrLit
          (natToStr (utf8Len ((some "amount=5".data).getD [])))) clHdrLit = 1 ∧
      (∀ kv : Str × Str,
        kv ∈ ([("Authorization".data, "Bearer sk".data),
          ("content-length".data, "999".data)] : List (Str × Str)) →
        kv.1 ≠ hostLit → kv.1 ≠ clHdrLit →
        kv ∈ setAssoc (setAssoc
          [("Authorization".data, "Bearer sk".data), ("content-length".data, "999".data)]
          hostLit "api.stripe.com".data) clHdrLit
          (natToStr (utf8Len ((some "amount=5".data).getD []))))) :=
  ⟨by decide,
    c5_request_encoding_amended "POST".data "/v1/charges".data "api.stripe.com".data
      [("Authorization".data, "Bearer sk".data), ("content-length".data, "999".data)]
      (some "amount=5".data) (by decide)⟩

/-! ## Case-insensitivity of header parsing -/

/-- Two header lines that the parser treats identically: their keys (the text
before the first `": "`) agree after lower-casing, and their stored values
(the second `": "`-split segment) agree. -/
def lineKeyCaseEq (a b : Str) : Bool :=
  decide (((splitSeq colonSp a).headD []).map Char.toLower =
    ((splitSeq colonSp b).headD []).map Char.toLower) &&
  decide ((splitSeq colonSp a)[1]? = (splitSeq colonSp b)[1]?)

/-- Pointwise `lineKeyCaseEq` over two header-line lists. -/
def linesKeyCaseEq : List Str → List Str → Bool
  | [], [] => true
  | a :: as, b :: bs => lineKeyCaseEq a b && linesKeyCaseEq as bs
  | _, _ => false

theorem parseHeaderLines_fold_key_case : ∀ (l1 l2 : List Str),
    linesKeyCaseEq l1 l2 = true → ∀ (hs : Headers),
    l1.foldl (fun hs line =>
      let parts := splitSeq colonSp line
      setAssoc hs ((parts.headD []).map Char.toLower) parts[1]?) hs =
    l2.foldl (fun hs line =>
      let parts := splitSeq colonSp line
      setAssoc hs ((parts.headD []).map Char.toLower) parts[1]?) hs := by
  intro l1
  induction l1 with
  | nil =>
    intro l2 h hs
    cases l2 with
    | nil => rfl
    | cons b bs => simp [linesKeyCaseEq] at h
  | cons a as ih =>
    intro l2 h hs
    cases l2 with
    | nil => simp [linesKeyCaseEq] at h
    | cons b bs =>
      simp only [linesKeyCaseEq, lineKeyCaseEq, Bool.and_eq_true, decide_eq_true_eq] at h
      obtain ⟨⟨hk, hv⟩, hrest⟩ := h
      rw [List.foldl_cons, List.foldl_cons]
      show List.foldl (fun hs line =>
          let parts := splitSeq colonSp line
          setAssoc hs ((parts.headD []).map Char.toLower) parts[1]?)
        (setAssoc hs (((splitSeq colonSp a).headD []).map Char.toLower)
          (splitSeq colonSp a)[1]?) as =
        List.foldl (fun hs line =>
          let parts := splitSeq colonSp line
          setAssoc hs ((parts.headD []).map Char.toLower) parts[1]?)
        (setAssoc hs (((splitSeq colonSp b).headD []).map Char.toLower)
          (splitSeq colonSp b)[1]?) bs
      rw [hk, hv]
      exact ih bs hrest _

/-- The parsed header object only depends on lower-cased keys and stored
values. -/
theorem parseHeaderLines_key_case (l1 l2 : List Str)
    (h : linesKeyCaseEq l1 l2 = true) :
    parseHeaderLines l1 = parseHeaderLines l2 :=
  parseHeaderLines_fold_key_case l1 l2 h []

theorem mkHeadInfo_key_case (sl : Str) (l1 l2 : List Str)
    (h : linesKeyCaseEq l1 l2 = true) : mkHeadInfo sl l1 = mkHeadInfo sl l2 := by
  simp only [mkHeadInfo]
  rw [parseHeaderLines_key_case l1 l2 h]

/-- `parseHead` through an explicit split of the head into lines. -/
theorem parseHead_of_split (headStr sl : Str) (ls : List Str)
    (hsp : splitSeq crlf headStr = sl :: ls) : parseHead headStr = mkHeadInfo sl ls := by
  simp only [parseHead, hsp, List.headD_cons, List.tail_cons]

/-- Claim C7 (confirmed): header lookup is case-insensitive.  Two responses
that are identical except for the letter case of header names (same status
line, same body, header lines whose keys agree after lower-casing and whose
values agree) drive the machine into the very same state: the same framing
decision and the same completed response, because parsed keys are lower-cased
before being stored and looked up. -/
theorem c7_header_case_insensitive (url statusLine b : Str) (lines1 lines2 : List Str)
    (hk : linesKeyCaseEq lines1 lines2 = true)
    (h1 : splitSeq crlf (List.intercalate crlf (statusLine :: lines1)) =
      statusLine :: lines1)
    (h2 : splitSeq crlf (List.intercalate crlf (statusLine :: lines2)) =
      statusLine :: lines2)
    (hf1 : firstIdx crlfcrlf
        (List.intercalate crlf (statusLine :: lines1) ++ crlfcrlf ++ b) =
      some (List.intercalate crlf (statusLine :: lines1)).length)
    (hf2 : firstIdx crlfcrlf
        (List.intercalate crlf (statusLine :: lines2) ++ crlfcrlf ++ b) =
      some (List.intercalate crlf (statusLine :: lines2)).length) :
    runEvents (initState url)
        [Event.dataEv (List.intercalate crlf (statusLine :: lines1) ++ crlfcrlf ++ b),
          Event.endEv] =
      runEvents (initState url)
        [Event.dataEv (List.intercalate crlf (statusLine :: lines2) ++ crlfcrlf ++ b),
          Event.endEv] := by
  have hpp : parseHead (List.intercalate crlf (statusLine :: lines1)) =
      parseHead (List.intercalate crlf (statusLine :: lines2)) := by
    rw [parseHead_of_split _ _ _ h1, parseHead_of_split _ _ _ h2,
      mkHeadInfo_key_case statusLine lines1 lines2 hk]
  show onEnd (onData (initState url) _) = onEnd (onData (initState url) _)
  rw [onData_header_crossing url _ b hf1, onData_header_crossing url _ b hf2, hpp]

/-- Witness for C7 with `Content-Length` against `content-length`. -/
theorem c7_header_case_insensitive_witness :
    (linesKeyCaseEq ["Content-Length: 2".data] ["content-length: 2".data] = true ∧
      splitSeq crlf (List.intercalate crlf
        ["HTTP/1.1 200 OK".data, "Content-Length: 2".data]) =
        ["HTTP/1.1 200 OK".data, "Content-Length: 2".data] ∧
      splitSeq crlf (List.intercalate crlf
        ["HTTP/1.1 200 OK".data, "content-length: 2".data]) =
        ["HTTP/1.1 200 OK".data, "content-length: 2".data] ∧
      firstIdx crlfcrlf (List.intercalate crlf
          ["HTTP/1.1 200 OK".data, "Content-Length: 2".data] ++ crlfcrlf ++ "ok".data) =
        some (List.intercalate crlf
          ["HTTP/1.1 200 OK".data, "Content-Length: 2".data]).length ∧
      firstIdx crlfcrlf (List.intercalate crlf
          ["HTTP/1.1 200 OK".data, "content-length: 2".data] ++ crlfcrlf ++ "ok".data) =
        some (List.intercalate crlf
          ["HTTP/1.1 200 OK".data, "content-length: 2".data]).length) ∧
    runEvents (initState demoUrl)
        [Event.dataEv (List.intercalate crlf
          ["HTTP/1.1 200 OK".data, "Content-Length: 2".data] ++ crlfcrlf ++ "ok".data),
          Event.endEv] =
      runEvents (initState demoUrl)
        [Event.dataEv (List.intercalate crlf
          ["HTTP/1.1 200 OK".data, "content-length: 2".data] ++ crlfcrlf ++ "ok".data),
          Event.endEv] :=
  ⟨⟨by decide, by decide, by decide, by decide, by decide⟩,
    c7_header_case_insensitive demoUrl "HTTP/1.1 200 OK".data "ok".data
      ["Content-Length: 2".data] ["content-length: 2".data]
      (by decide) (by decide) (by decide) (by decide) (by decide)⟩

/-! ## Header-line splitting -/

/-- Claim C8 (corrected, counterexample): for the header line
`"x-note: alpha: beta"` the stored value is only `"alpha"` — the segment
between the first and second `": "` — not the entire remainder
`"alpha: beta"` of the line. -/
theorem c8_header_split_counterexample :
    getHeader (parseHeaderLines ["x-note: alpha: beta".data]) "x-note".data =
      some "alpha".data ∧
    ("alpha".data : Str) ≠ "alpha: beta".data :=
  ⟨by decide, by decide⟩

/-- Claim C8 (corrected, theorem): header-line parsing splits at every
occurrence of `": "` (not only the first): the key is the segment before the
first separator, lower-cased, and the stored value is the second segment —
any text after a further `": "` is dropped by the destructuring.  Duplicate
keys: the last occurrence wins, i.e. after parsing any earlier lines followed
by this line, the lookup of the line's key yields the line's own value. -/
theorem c8_header_split_amended (line k v1 : Str) (rest : List Str) (pre : List Str)
    (hsp : splitSeq colonSp line = k :: v1 :: rest) :
    parseHeaderLines [line] = [(k.map Char.toLower, some v1)] ∧
    getHeader (parseHeaderLines (pre ++ [line])) (k.map Char.toLower) = some v1 := by
  constructor
  · simp only [parseHeaderLines, List.foldl_cons, List.foldl_nil, hsp, List.headD_cons,
      List.getElem?_cons_succ, List.getElem?_cons_zero]
    rfl
  · rw [show parseHeaderLines (pre ++ [line]) =
        setAssoc (parseHeaderLines pre) (k.map Char.toLower) (some v1) from ?_]
    · simp only [getHeader, getAssoc_setAssoc_self, Option.join]
      rfl
    · simp only [parseHeaderLines, List.foldl_append, List.foldl_cons, List.foldl_nil,
        hsp, List.headD_cons, List.getElem?_cons_succ, List.getElem?_cons_zero]

/-- Witness for C8's theorem at the counterexample line, preceded by an
earlier line with the same key. -/
theorem c8_header_split_amended_witness :
    splitSeq colonSp "x-note: alpha: beta".data =
      ["x-note".data, "alpha".data, "beta".data] ∧
    (parseHeaderLines ["x-note: alpha: beta".data] =
      [(("x-note".data : Str).map Char.toLower, some "alpha".data)] ∧
    getHeader (parseHeaderLines (["x-note: first".data] ++ ["x-note: alpha: beta".data]))
        (("x-note".data : Str).map Char.toLower) = some "alpha".data) :=
  ⟨by decide,
    c8_header_split_amended "x-note: alpha: beta".data "x-note".data "alpha".data
      ["beta".data] ["x-note: first".data] (by decide)⟩

end StripeBun
